import Mathlib

/-
Verification development for the streaming tool-call orchestrator of the
openai-responses-python-quickstart repository.

The central artifact is a shallow embedding of `iterate_stream`
(src/routers/chat.py, the event loop inside `stream_response`), which drains
one upstream Responses sub-stream, reshapes each upstream event into
downstream server-sent events, dispatches finished function tool calls, and
recursively drains continuation sub-streams.  External collaborators
(the OpenAI client, the tool registry, Jinja template rendering, json
encoding/decoding) are modelled as oracle fields of an `Env` record; the
control flow, state threading, emitted event names/payloads and error
handling are translated directly from the source.

A second, independent embedding covers `retrieve_file`
(src/utils/files.py) and its `download_assistant_file` route
(src/routers/files.py), together with the posix path arithmetic it relies
on (`os.path.join`, `os.path.abspath`, `str.startswith`).
-/

namespace RespQuick

/-- Downstream server-sent event, as produced by the `yield sse_format(...)`
calls of `iterate_stream`.  `name` is the SSE event name, `payload` the data
fragment.  `target` is the step/item id that the payload is keyed to: for
`messageCreated`/`toolCallCreated` it is the `step_id` passed to the
assistant-step template, for `textDelta`/`toolDelta`/`textReplacement` it is
the `step_id` passed to `wrap_for_oob_swap`; events whose payload is not
keyed to an item (`toolOutput`, `runCompleted`, `networkError`, `endStream`)
carry `none`.  This mirrors the spec's DownstreamEvent record
(name, optional target_item_id, payload). -/
structure DEvent where
  name : String
  target : Option String
  payload : String
deriving DecidableEq, Repr

/-- The oob-swap wrapper of src/routers/chat.py (`wrap_for_oob_swap`): the
concrete wire payload of an event with `target = some step_id`. -/
def wrap_for_oob_swap (step_id : String) (text_value : String) : String :=
  "<span hx-swap-oob=\"beforeend:#step-" ++ step_id ++ "\">" ++ text_value ++ "</span>"

/-- Payload of a `ResponseOutputTextAnnotationAddedEvent.annotation` dict, as
inspected by `iterate_stream` via `event.annotation["type"]`. -/
inductive Ann
  | fileCitation (filename : String)
  | containerFileCitation (containerId fileId : String)
  | otherKind (tag : String)
deriving DecidableEq, Repr

/-- One upstream event as discriminated by the `match event` statement of
`iterate_stream`.  `skipped` stands for the whole family of events the code
explicitly passes over (`ResponseInProgressEvent`, the intermediate
done/in-progress events, `ResponseMcpListToolsFailedEvent`,
`ResponseContentPartAddedEvent`, `ResponseFunctionCallArgumentsDoneEvent`,
...).  `unknown` is any event falling into the final `case _` (for example a
`response.failed` terminal, which the code does not match).
`transportError` stands for an exception raised by the upstream iterator
while draining, and `cancelDelivered` for an `asyncio.CancelledError`
observed at the draining suspension point. -/
inductive UEvent
  | created (responseId : String)
  | skipped
  | toolSearching (etype itemId : String)
  | outputItemAdded (itemId itemType itemName : String)
  | textDelta (itemId delta : String)
  | annotationAdded (ann : Option Ann)
  | codeDelta (delta : String)
  | argsDelta (itemId delta : String)
  | outputItemDone (itemId itemType itemName argumentsJson : String)
  | completed
  | unknown (etype : String)
  | transportError
  | cancelDelivered
deriving DecidableEq, Repr

/-- How one invocation of `iterate_stream` finished: `ran` means the
`async for` loop was exhausted and the generator returned normally,
`errored` means the generic `except Exception` handler fired (the generator
emitted the error sequence and returned), `cancelled` means an
`asyncio.CancelledError` was re-raised and propagated outward. -/
inductive Outcome
  | ran
  | errored
  | cancelled
deriving DecidableEq, Repr

/-- Result of draining one sub-stream via `iterate_stream`: the outcome, the
continuation counter after the run (how many `client.responses.create`
continuation sub-streams have been opened so far), the final values of the
`response_id` and `current_item_id` locals, the downstream events yielded,
the tool dispatches performed (`FUNCTION_REGISTRY.call` invocations, as
name/parsed-arguments pairs) and the `function_call_output` submissions made
to `client.conversations.items.create` (as call_id/output-string pairs).
`J` is the type of structured (JSON-like) values. -/
structure RunRes (J : Type) where
  outcome : Outcome
  nextCont : Nat
  finalRid : String
  finalCur : String
  out : List DEvent
  dispatches : List (String × J)
  submissions : List (String × String)
deriving DecidableEq, Repr

/-- Prefix the accumulated effect lists of a run result (used when one event
has been handled and the remaining events produced `r`). -/
def RunRes.prepend {J : Type} (o : List DEvent) (d : List (String × J))
    (s : List (String × String)) (r : RunRes J) : RunRes J :=
  { r with
    out := o ++ r.out
    dispatches := d ++ r.dispatches
    submissions := s ++ r.submissions }

/-- External collaborators of `iterate_stream`, as oracles.
`jsonParse` models `json.loads` (`none` means the call raises),
`jsonDumps` models `json.dumps(x)` and `jsonDumpsIndent` models
`json.dumps(x, indent=2)`.
`dispatch` models `FUNCTION_REGISTRY.call(name, args, context)` followed by
`result.model_dump(exclude_none=True)`; modelled from the spec:
`utils.function_calling.ToolRegistry` is not under src/, and per spec §4.3
the dispatcher catches handler failures and returns a structured error
result, so `dispatch` is total.
`renderStep` models rendering `components/assistant-step.html` with
(step_type, step_id, content); `hasTemplate`/`renderTool` model the
`TEMPLATE_REGISTRY` lookup and custom tool-output rendering (`none` means
the render raised and the code falls back to the raw json dump).
`containerRetrieve` models `client.containers.files.retrieve` returning the
file path (`none` means the lookup raises).  `lookupCallId` models the
`client.conversations.items.list` scan for the item with the current item
id, returning its `call_id`.  `continuation n` is the event stream returned
by the n-th `client.responses.create` continuation call. -/
structure Env (J : Type) where
  showDetail : Bool
  jsonParse : String → Option J
  jsonDumps : J → String
  jsonDumpsIndent : J → String
  dispatch : String → J → J
  renderStep : String → String → String → String
  hasTemplate : String → Bool
  renderTool : String → J → Option String
  containerRetrieve : String → String → Option String
  lookupCallId : String → Option String
  continuation : Nat → List UEvent

/-- Route table of the files APIRouter (src/routers/files.py, prefix
"/files"); route names default to the endpoint function names.  Paths are
kept as alternating literal/parameter segments. -/
inductive Seg
  | lit (s : String)
  | par (pname : String)
deriving DecidableEq, Repr

/-- The concrete routes registered on `files_router`. -/
def filesRouterRoutes : List (String × List Seg) :=
  [("list_files", [Seg.lit "/files/list"]),
   ("upload_file", [Seg.lit "/files/"]),
   ("delete_file", [Seg.lit "/files/", Seg.par "file_id"]),
   ("download_assistant_file", [Seg.lit "/files/", Seg.par "file_name"]),
   ("download_container_file",
      [Seg.lit "/files/", Seg.par "container_id", Seg.lit "/",
       Seg.par "file_id", Seg.lit "/openai_content"]),
   ("get_assistant_image_content",
      [Seg.lit "/files/", Seg.par "file_id", Seg.lit "/content"])]

/-- Association-list lookup for route names. -/
def findRoute (n : String) : List (String × List Seg) → Option (List Seg)
  | [] => none
  | (m, segs) :: rest => if n = m then some segs else findRoute n rest

/-- Association-list lookup for path parameters. -/
def findParam (n : String) : List (String × String) → Option String
  | [] => none
  | (m, v) :: rest => if n = m then some v else findParam n rest

/-- Substitute path parameters into a route path. -/
def substSegs (params : List (String × String)) : List Seg → Option String
  | [] => some ""
  | Seg.lit s :: rest => (substSegs params rest).map (fun t => s ++ t)
  | Seg.par n :: rest =>
      match findParam n params with
      | none => none
      | some v => (substSegs params rest).map (fun t => v ++ t)

/-- Model of `files_router.url_path_for(name, **params)`.  Starlette raises
`NoMatchFound` when no route has the given name (or a parameter is
missing); that is modelled by `none`, and `iterate_stream` treats it as a
raised exception. -/
def url_path_for (name : String) (params : List (String × String)) : Option String :=
  match findRoute name filesRouterRoutes with
  | none => none
  | some segs => substSegs params segs

/-- Uppercase hex digit for a value below 16 (as used by `urllib.parse.quote`). -/
def hexDigit (n : Nat) : Char :=
  if n < 10 then Char.ofNat (48 + n) else Char.ofNat (55 + n)

/-- Bytes `urllib.parse.quote` leaves unescaped with `safe=""`: ASCII
letters, digits, and `_`, `-`, `.`, `~`. -/
def isUnreservedByte (n : Nat) : Bool :=
  (65 ≤ n ∧ n ≤ 90) ∨ (97 ≤ n ∧ n ≤ 122) ∨ (48 ≤ n ∧ n ≤ 57) ∨
    n = 95 ∨ n = 45 ∨ n = 46 ∨ n = 126

/-- UTF-8 encoding of one code point, as a list of byte values. -/
def utf8Bytes (c : Char) : List Nat :=
  let n := c.toNat
  if n < 128 then [n]
  else if n < 2048 then [192 + n / 64, 128 + n % 64]
  else if n < 65536 then [224 + n / 4096, 128 + (n / 64) % 64, 128 + n % 64]
  else [240 + n / 262144, 128 + (n / 4096) % 64, 128 + (n / 64) % 64, 128 + n % 64]

/-- UTF-8 encoding of a string, as a list of byte values. -/
def strUTF8 (s : String) : List Nat :=
  s.data.flatMap utf8Bytes

/-- Model of `urllib.parse.quote(s, safe="")`: percent-encode every UTF-8
byte outside the unreserved set, uppercase hex. -/
def url_quote (s : String) : String :=
  String.join ((strUTF8 s).map (fun n =>
    if isUnreservedByte n then String.mk [Char.ofNat n]
    else String.mk ['%', hexDigit (n / 16), hexDigit (n % 16)]))

/-- The loader-clearing `runCompleted` event (same payload on the success
and the failure path). -/
def loaderClear : DEvent :=
  ⟨"runCompleted", none, "<span hx-swap-oob=\"outerHTML:.dots\"></span>"⟩

/-- The failure sequence emitted by the `except Exception` handler of
`iterate_stream`: loader clear, minimal non-empty `networkError`,
`endStream` with the `ERROR` marker. -/
def errSeq : List DEvent :=
  [loaderClear, ⟨"networkError", none, "<span></span>"⟩,
   ⟨"endStream", none, "ERROR"⟩]

/-- The success terminal emitted on `ResponseCompletedEvent`: loader clear
then `endStream` with the `DONE` marker. -/
def doneSeq : List DEvent :=
  [loaderClear, ⟨"endStream", none, "DONE"⟩]

/-- The tool label computed by
`event.type.split(".")[1].split("_call")[0]` for the file-search /
code-interpreter progress events. -/
def toolNameOfEventType (etype : String) : String :=
  (((etype.splitOn ".").getD 1 "").splitOn "_call").getD 0 ""

/-- Tool-output fragment for a finished function call: the custom template
when one is registered (falling back to the raw json dump if rendering
raises), otherwise the generic `<pre>` dump with `indent=2`. -/
def renderToolOutput {J : Type} (env : Env J) (functionName : String) (result : J) : String :=
  if env.hasTemplate functionName then
    match env.renderTool functionName result with
    | some html => html
    | none => "<pre>" ++ env.jsonDumps result ++ "</pre>"
  else "<pre>" ++ env.jsonDumpsIndent result ++ "</pre>"

/-- Per-event outcome of the `match event` statement, for all arms that do
not dispatch a tool: `push outs rid cur` yields `outs` and continues with
the given `response_id`/`current_item_id`; `raiseExc` means the handler
raised a non-cancellation exception; `stop` means `asyncio.CancelledError`;
`fnDone` is a `ResponseOutputItemDoneEvent` for a `function_call` item whose
arguments parsed to `a` (the dispatch/continuation block is handled by the
caller). -/
inductive Step (J : Type)
  | push (outs : List DEvent) (rid cur : String)
  | raiseExc
  | stop
  | fnDone (itemId itemName : String) (a : J)

/-- Translation of the `match event` arms of `iterate_stream`
(src/routers/chat.py lines 153-314), given the current `response_id` and
`current_item_id`. -/
def stepOf {J : Type} (env : Env J) (rid cur : String) : UEvent → Step J
  | UEvent.created r => Step.push [] r cur
  | UEvent.skipped => Step.push [] rid cur
  | UEvent.unknown _ => Step.push [] rid cur
  | UEvent.toolSearching etype itemId =>
      let tool := toolNameOfEventType etype
      let content := "Calling " ++ tool ++ " tool..." ++
        (if etype = "response.code_interpreter_call.in_progress" then "\n" else "")
      Step.push [⟨"toolCallCreated", some itemId, env.renderStep "toolCall" itemId content⟩]
        rid itemId
  | UEvent.outputItemAdded itemId itemType itemName =>
      -- two sequential ifs in the source; the conditions are disjoint in itemType
      if itemId ≠ "" ∧ (itemType = "message" ∨ itemType = "output_text") then
        Step.push [⟨"messageCreated", some itemId,
            env.renderStep "assistantMessage" itemId ""⟩] rid itemId
      else if itemType = "function_call" ∨ itemType = "mcp_call" then
        Step.push [⟨"toolCallCreated", some itemId,
            env.renderStep "toolCall" itemId
              ("Calling " ++ itemName ++ " tool..." ++
                (if env.showDetail then "\n" else ""))⟩] rid itemId
      else Step.push [] rid cur
  | UEvent.textDelta _ delta =>
      if delta ≠ "" ∧ cur ≠ "" then
        Step.push [⟨"textDelta", some cur, delta⟩] rid cur
      else Step.push [] rid cur
  | UEvent.codeDelta delta =>
      if delta ≠ "" ∧ cur ≠ "" then
        Step.push [⟨"toolDelta", some cur, delta⟩] rid cur
      else Step.push [] rid cur
  | UEvent.argsDelta itemId delta =>
      if env.showDetail then
        Step.push [⟨"toolDelta", some itemId, delta⟩] rid itemId
      else Step.push [] rid cur
  | UEvent.annotationAdded none => Step.push [] rid cur
  | UEvent.annotationAdded (some a) =>
      if cur = "" then Step.push [] rid cur
      else
        match a with
        | Ann.fileCitation filename =>
            let encoded := url_quote filename
            match url_path_for "download_stored_file" [("file_name", encoded)] with
            | none => Step.raiseExc
            | some p =>
                Step.push [⟨"textDelta", some cur,
                  "(<a href=\"" ++ p ++ "\">†</a>)"⟩] rid cur
        | Ann.containerFileCitation containerId fileId =>
            match env.containerRetrieve containerId fileId with
            | none => Step.raiseExc
            | some path =>
                match url_path_for "download_container_file"
                    [("container_id", containerId), ("file_id", fileId)] with
                | none => Step.raiseExc
                | some p =>
                    Step.push [⟨"textReplacement", some cur,
                      "sandbox:" ++ path ++ "|" ++ p⟩] rid cur
        | Ann.otherKind _ => Step.push [] rid cur
  | UEvent.outputItemDone itemId itemType itemName argumentsJson =>
      if itemType = "function_call" then
        match env.jsonParse argumentsJson with
        | none => Step.raiseExc
        | some a => Step.fnDone itemId itemName a
      else Step.push [] rid cur
  | UEvent.completed => Step.push doneSeq rid cur
  | UEvent.transportError => Step.raiseExc
  | UEvent.cancelDelivered => Step.stop

/-- Drain one sub-stream: process the event list with the current
continuation counter `k`, `response_id` and `current_item_id`, where
`openCont k rid` is the result of opening and fully draining the next
continuation sub-stream (the recursive `iterate_stream(next_stream,
response_id)` call).  A raised exception is caught by this invocation's
`except Exception` handler (error sequence, return); a cancellation
propagates. -/
def runList {J : Type} (env : Env J) (openCont : Nat → String → RunRes J) :
    List UEvent → Nat → String → String → RunRes J
  | [], k, rid, cur => ⟨Outcome.ran, k, rid, cur, [], [], []⟩
  | e :: rest, k, rid, cur =>
    match stepOf env rid cur e with
    | Step.push outs rid' cur' =>
        RunRes.prepend outs [] [] (runList env openCont rest k rid' cur')
    | Step.raiseExc => ⟨Outcome.errored, k, rid, cur, errSeq, [], []⟩
    | Step.stop => ⟨Outcome.cancelled, k, rid, cur, [], [], []⟩
    | Step.fnDone itemId itemName a =>
        let result := env.dispatch itemName a
        let outHtml := renderToolOutput env itemName result
        match env.lookupCallId itemId with
        | none =>
            -- function_call item not found in the conversation items:
            -- no submission, no continuation
            RunRes.prepend [⟨"toolOutput", none, outHtml⟩] [(itemName, a)] []
              (runList env openCont rest k rid itemId)
        | some callId =>
            let contRes := openCont k rid
            if contRes.outcome = Outcome.cancelled then
              { outcome := Outcome.cancelled
                nextCont := contRes.nextCont
                finalRid := rid
                finalCur := itemId
                out := ⟨"toolOutput", none, outHtml⟩ :: contRes.out
                dispatches := (itemName, a) :: contRes.dispatches
                submissions := (callId, env.jsonDumps result) :: contRes.submissions }
            else
              RunRes.prepend (⟨"toolOutput", none, outHtml⟩ :: contRes.out)
                ((itemName, a) :: contRes.dispatches)
                ((callId, env.jsonDumps result) :: contRes.submissions)
                (runList env openCont rest contRes.nextCont rid itemId)

/-- The recursive generator `iterate_stream`.  `fuel` bounds the nesting
depth of continuation sub-streams (an exhausted budget makes a continuation
contribute nothing, like an immediately-empty stream); continuation `n` of
the environment is drained with a fresh `current_item_id` and the caller's
`response_id`, exactly as `iterate_stream(next_stream, response_id)`. -/
def iterate_stream {J : Type} (env : Env J) :
    Nat → List UEvent → Nat → String → String → RunRes J
  | 0, evs, k, rid, cur =>
      runList env (fun k' rid' => ⟨Outcome.ran, k' + 1, rid', "", [], [], []⟩) evs k rid cur
  | fuel + 1, evs, k, rid, cur =>
      runList env
        (fun k' rid' => iterate_stream env fuel (env.continuation k') (k' + 1) rid' "")
        evs k rid cur

/-- One full orchestration turn: the top-level
`async for sse in iterate_stream(stream)` with the initial empty
`response_id`/`current_item_id` and continuation counter 0. -/
def runTurn {J : Type} (env : Env J) (fuel : Nat) (evs : List UEvent) : RunRes J :=
  iterate_stream env fuel evs 0 "" ""

/-- Protocol events are the ones actually delivered by the upstream event
taxonomy; `transportError` and `cancelDelivered` model conditions of the
transport, not upstream events. -/
def protocolEvent : UEvent → Bool
  | UEvent.transportError => false
  | UEvent.cancelDelivered => false
  | _ => true

/-- Recognizer for a finished function tool call (the only event that can
trigger dispatch and a continuation sub-stream). -/
def isFnDone : UEvent → Bool
  | UEvent.outputItemDone _ itemType _ _ => itemType = "function_call"
  | _ => false

/-- Membership of an item id in a list of already-created step ids. -/
def memStr (i : String) : List String → Bool
  | [] => false
  | j :: r => if j = i then true else memStr i r

/-- Event names that create a new downstream step region. -/
def creationName (n : String) : Bool :=
  n = "messageCreated" || n = "toolCallCreated"

/-- Event names that append/replace text scoped to an existing region. -/
def textName (n : String) : Bool :=
  n = "textDelta" || n = "textReplacement"

/-- Scoping soundness of a downstream sequence: scanning left to right while
collecting the step ids of creation events, every `textDelta` and
`textReplacement` must target an already-created step id. -/
def scopedOk : List String → List DEvent → Bool
  | _, [] => true
  | ids, e :: rest =>
      if creationName e.name then scopedOk (e.target.getD "" :: ids) rest
      else if textName e.name then
        (match e.target with
         | some i => memStr i ids
         | none => false) && scopedOk ids rest
      else scopedOk ids rest

/-- Step ids created by a downstream sequence, accumulated onto `ids`. -/
def idsAfter (ids : List String) (out : List DEvent) : List String :=
  out.foldl (fun acc e => if creationName e.name then e.target.getD "" :: acc else acc) ids

/-- Number of terminal `endStream` markers in a downstream sequence. -/
def endStreamCount (out : List DEvent) : Nat :=
  (out.filter (fun e => e.name = "endStream")).length

/-- Invariant used for the terminal-marker/scoping analysis of one
sub-stream: the emitted events are scoping-sound with respect to the
already-created ids `ids`, and the run either completed normally with no
terminal marker (and a final current item id that was created), or took the
failure path, ending in exactly the error sequence. -/
def turnOutOk {J : Type} (ids : List String) (r : RunRes J) : Prop :=
  scopedOk ids r.out = true ∧
  ((r.outcome = Outcome.ran ∧ endStreamCount r.out = 0 ∧
      (r.finalCur ≠ "" → memStr r.finalCur (idsAfter ids r.out) = true)) ∨
   (r.outcome = Outcome.errored ∧ ∃ p, r.out = p ++ errSeq ∧ endStreamCount p = 0))

/- Shallow embedding of `retrieve_file` (src/utils/files.py) and the
`download_assistant_file` route (src/routers/files.py), with the posix path
arithmetic it uses.  The current working directory and the filesystem are
oracles (`cwd`, `pathExists`). -/

/-- Model of Python `str.startswith` (also used for the absolute-path test
inside the path helpers, where Python checks the leading slash). -/
def startswith (s p : String) : Bool :=
  p.data.isPrefixOf s.data

/-- Split a posix path on slashes (the segment structure used by
`os.path.normpath`). -/
def splitSlashAux : List Char → List Char → List String
  | [], acc => [String.mk acc.reverse]
  | c :: cs, acc =>
      if c = '/' then String.mk acc.reverse :: splitSlashAux cs []
      else splitSlashAux cs (c :: acc)

/-- Split a string on slash characters. -/
def splitSlash (s : String) : List String :=
  splitSlashAux s.data []

/-- Join path segments with slashes. -/
def joinSegs : List String → String
  | [] => ""
  | [a] => a
  | a :: rest => a ++ "/" ++ joinSegs rest

/-- Normalize an absolute posix path (collapse empty and `.` segments,
resolve `..` against the parent, `..` at the root stays at the root), as
`os.path.normpath` does for absolute paths. -/
def normAbs (p : String) : String :=
  let parts := (splitSlash p).foldl
    (fun acc seg =>
      if seg = "" ∨ seg = "." then acc
      else if seg = ".." then acc.dropLast
      else acc ++ [seg]) []
  "/" ++ joinSegs parts

/-- Model of `os.path.abspath`: make the path absolute against the current
working directory, then normalize. -/
def os_path_abspath (cwd p : String) : String :=
  if startswith p "/" then normAbs p else normAbs (cwd ++ "/" ++ p)

/-- Model of the two-argument posix `os.path.join` as used here (the first
component, `"uploads"`, is non-empty and does not end in a slash): an
absolute second component replaces the first, otherwise the components are
joined with a slash. -/
def os_path_join (a b : String) : String :=
  if startswith b "/" then b else a ++ "/" ++ b

/-- Result of the download route: either a `FileResponse` serving the given
path under the given download filename, or an `HTTPException` status. -/
inductive FileServe
  | fileResponse (path filename : String)
  | httpError (status : Nat)
deriving DecidableEq, Repr

/-- Translation of `retrieve_file` (src/utils/files.py lines 79-97): join
under `uploads`, 404 when the path does not exist, 403 when the absolute
path fails the `startswith` check against the absolute uploads directory,
otherwise serve the file. -/
def retrieve_file (cwd : String) (pathExists : String → Bool) (file_name : String) : FileServe :=
  let upload_dir := "uploads"
  let file_path := os_path_join upload_dir file_name
  if ¬ pathExists file_path then FileServe.httpError 404
  else if ¬ startswith (os_path_abspath cwd file_path) (os_path_abspath cwd upload_dir) then
    FileServe.httpError 403
  else FileServe.fileResponse file_path file_name

/-- The `GET /files/{file_name}` route handler (src/routers/files.py lines
212-219), which just delegates to `retrieve_file`. -/
def download_assistant_file (cwd : String) (pathExists : String → Bool)
    (file_name : String) : FileServe :=
  retrieve_file cwd pathExists file_name

/-- Spec-side safety predicate for C10: the resolved absolute path of
`uploads/file_name` lies inside the uploads directory (equal to it or
strictly below it). -/
def insideUploads (cwd : String) (file_name : String) : Bool :=
  let resolved := os_path_abspath cwd (os_path_join "uploads" file_name)
  let updir := os_path_abspath cwd "uploads"
  resolved = updir || startswith resolved (updir ++ "/")

/- Concrete environments and inputs used by the counterexample and witness
theorems.  `J` is instantiated with `Bool`: the structured-value type only
needs distinguishable inhabitants and an injective json encoding. -/

/-- Concrete environment over `J := Bool`: every argument string except
`"BAD"` parses (to `true`), dispatch returns `true`, the json encoding of a
value is `"true"`/`"false"`, the assistant-step template renders to the
step id, no custom tool template is registered, and the conversation items
lookup finds call id `"call_" ++ item_id`. -/
def envB (detail : Bool) (cont : Nat → List UEvent) (cfr : String → String → Option String) :
    Env Bool :=
  { showDetail := detail
    jsonParse := fun s => if s = "BAD" then none else some true
    jsonDumps := fun b => if b then "true" else "false"
    jsonDumpsIndent := fun b => if b then "true" else "false"
    dispatch := fun _ _ => true
    renderStep := fun _ stepId _ => stepId
    hasTemplate := fun _ => false
    renderTool := fun _ _ => none
    containerRetrieve := cfr
    lookupCallId := fun i => some ("call_" ++ i)
    continuation := cont }

/-- Environment whose continuation sub-streams complete immediately and
whose container lookups succeed. -/
def envPlain : Env Bool :=
  envB false (fun _ => [UEvent.completed]) (fun _ _ => some "/mnt/data/plot.png")

/-- Environment with tool-call detail enabled. -/
def envDetail : Env Bool :=
  envB true (fun _ => [UEvent.completed]) (fun _ _ => some "/mnt/data/plot.png")

/-- Environment whose container-file lookup raises. -/
def envRetrieveFails : Env Bool :=
  envB false (fun _ => [UEvent.completed]) (fun _ _ => none)

/-- Environment whose first continuation sub-stream raises a transport
exception while being drained. -/
def envContFails : Env Bool :=
  envB false (fun n => if n = 0 then [UEvent.transportError] else [UEvent.completed])
    (fun _ _ => some "/mnt/data/plot.png")

/-- Environment over `J := Bool` whose json codec round-trips (`true` and
`false` literals); used for the round-trip witness. -/
def envRound : Env Bool :=
  { envB false (fun _ => [UEvent.completed]) (fun _ _ => some "/mnt/data/plot.png") with
    jsonParse := fun s =>
      if s = "true" then some true else if s = "false" then some false else none }

/-- A finished `get_weather` function call with well-formed arguments. -/
def fnDoneEv : UEvent :=
  UEvent.outputItemDone "fc1" "function_call" "get_weather" "\x7b\"location\": \"Paris\"\x7d"

/-- The continuation-opening function used by `iterate_stream` at a given
fuel budget. -/
def contOf {J : Type} (env : Env J) : Nat → Nat → String → RunRes J
  | 0 => fun k' rid' => ⟨Outcome.ran, k' + 1, rid', "", [], [], []⟩
  | fuel + 1 => fun k' rid' => iterate_stream env fuel (env.continuation k') (k' + 1) rid' ""

section Lemmas

variable {J : Type}

theorem prepend_nil (r : RunRes J) : RunRes.prepend [] [] [] r = r := by
  simp [RunRes.prepend]

theorem prepend_prepend (o₁ o₂ : List DEvent) (d₁ d₂ : List (String × J))
    (s₁ s₂ : List (String × String)) (r : RunRes J) :
    RunRes.prepend o₁ d₁ s₁ (RunRes.prepend o₂ d₂ s₂ r) =
      RunRes.prepend (o₁ ++ o₂) (d₁ ++ d₂) (s₁ ++ s₂) r := by
  simp [RunRes.prepend]

@[simp] theorem prepend_outcome (o : List DEvent) (d : List (String × J))
    (s : List (String × String)) (r : RunRes J) :
    (RunRes.prepend o d s r).outcome = r.outcome := rfl

@[simp] theorem prepend_nextCont (o : List DEvent) (d : List (String × J))
    (s : List (String × String)) (r : RunRes J) :
    (RunRes.prepend o d s r).nextCont = r.nextCont := rfl

@[simp] theorem prepend_finalRid (o : List DEvent) (d : List (String × J))
    (s : List (String × String)) (r : RunRes J) :
    (RunRes.prepend o d s r).finalRid = r.finalRid := rfl

@[simp] theorem prepend_finalCur (o : List DEvent) (d : List (String × J))
    (s : List (String × String)) (r : RunRes J) :
    (RunRes.prepend o d s r).finalCur = r.finalCur := rfl

@[simp] theorem prepend_out (o : List DEvent) (d : List (String × J))
    (s : List (String × String)) (r : RunRes J) :
    (RunRes.prepend o d s r).out = o ++ r.out := rfl

@[simp] theorem prepend_dispatches (o : List DEvent) (d : List (String × J))
    (s : List (String × String)) (r : RunRes J) :
    (RunRes.prepend o d s r).dispatches = d ++ r.dispatches := rfl

@[simp] theorem prepend_submissions (o : List DEvent) (d : List (String × J))
    (s : List (String × String)) (r : RunRes J) :
    (RunRes.prepend o d s r).submissions = s ++ r.submissions := rfl

/-- Draining `xs ++ ys` runs `xs` first; the rest of the stream is reached
only when draining `xs` neither errored out nor was cancelled. -/
theorem runList_append (env : Env J) (openCont : Nat → String → RunRes J)
    (xs ys : List UEvent) (k : Nat) (rid cur : String) :
    runList env openCont (xs ++ ys) k rid cur =
      (let r := runList env openCont xs k rid cur
       if r.outcome = Outcome.ran then
         RunRes.prepend r.out r.dispatches r.submissions
           (runList env openCont ys r.nextCont r.finalRid r.finalCur)
       else r) := by
  induction xs generalizing k rid cur with
  | nil =>
      simp [runList, prepend_nil]
  | cons e xs ih =>
      show runList env openCont (e :: (xs ++ ys)) k rid cur = _
      rw [runList]
      conv_rhs => rw [runList]
      cases hstep : stepOf env rid cur e with
      | push outs rid' cur' =>
          simp only [ih, RunRes.prepend]
          split
          · simp_all [RunRes.prepend]
          · simp_all [RunRes.prepend]
      | raiseExc => simp
      | stop => simp
      | fnDone itemId itemName a =>
          simp only []
          cases hlook : env.lookupCallId itemId with
          | none =>
              simp only [ih, RunRes.prepend]
              split
              · simp_all [RunRes.prepend]
              · simp_all [RunRes.prepend]
          | some callId =>
              by_cases hc : (openCont k rid).outcome = Outcome.cancelled
              · simp [hc]
              · simp only [hc, if_false, ih, RunRes.prepend]
                split
                · simp_all [RunRes.prepend]
                · simp_all [RunRes.prepend]

theorem idsAfter_nil (ids : List String) : idsAfter ids [] = ids := rfl

theorem idsAfter_cons (ids : List String) (e : DEvent) (rest : List DEvent) :
    idsAfter ids (e :: rest) =
      idsAfter (if creationName e.name then e.target.getD "" :: ids else ids) rest := by
  by_cases h : creationName e.name <;> simp [idsAfter, h]

theorem idsAfter_append (ids : List String) (a b : List DEvent) :
    idsAfter ids (a ++ b) = idsAfter (idsAfter ids a) b := by
  simp [idsAfter, List.foldl_append]

theorem scopedOk_append (ids : List String) (a b : List DEvent) :
    scopedOk ids (a ++ b) = (scopedOk ids a && scopedOk (idsAfter ids a) b) := by
  induction a generalizing ids with
  | nil => simp [scopedOk, idsAfter]
  | cons e a ih =>
      by_cases hc : creationName e.name
      · simp [scopedOk, hc, ih, idsAfter_cons]
      · by_cases ht : textName e.name
        · cases htr : e.target with
          | none => simp [scopedOk, hc, ht, htr, ih, idsAfter_cons]
          | some i => simp [scopedOk, hc, ht, htr, ih, idsAfter_cons, Bool.and_assoc]
        · simp [scopedOk, hc, ht, ih, idsAfter_cons]

theorem endStreamCount_append (a b : List DEvent) :
    endStreamCount (a ++ b) = endStreamCount a + endStreamCount b := by
  simp [endStreamCount, List.filter_append]

theorem scopedOk_errSeq (ids : List String) : scopedOk ids errSeq = true := rfl

theorem scopedOk_doneSeq (ids : List String) : scopedOk ids doneSeq = true := rfl

theorem endStreamCount_errSeq : endStreamCount errSeq = 1 := rfl

theorem endStreamCount_doneSeq : endStreamCount doneSeq = 1 := rfl

section InvariantLemmas

variable {J : Type}

theorem turnOutOk_prepend (outs : List DEvent) (r : RunRes J) (ids : List String)
    (h1 : scopedOk ids outs = true) (h2 : endStreamCount outs = 0)
    (h3 : turnOutOk (idsAfter ids outs) r) :
    turnOutOk ids (RunRes.prepend outs [] [] r) := by
  obtain ⟨hs, hrest⟩ := h3
  refine ⟨?_, ?_⟩
  · rw [prepend_out, scopedOk_append, h1, hs]; rfl
  · rcases hrest with ⟨ho, hc, hf⟩ | ⟨ho, p, hp, hcp⟩
    · refine Or.inl ⟨by simpa using ho, ?_, ?_⟩
      · rw [prepend_out, endStreamCount_append, h2, hc]
      · intro hne
        rw [prepend_out, idsAfter_append]
        simpa using hf (by simpa using hne)
    · refine Or.inr ⟨by simpa using ho, outs ++ p, ?_, ?_⟩
      · rw [prepend_out, hp, List.append_assoc]
      · rw [endStreamCount_append, h2, hcp]

theorem turnOutOk_raise (ids : List String) (k : Nat) (rid cur : String) :
    turnOutOk ids (⟨Outcome.errored, k, rid, cur, errSeq, [], []⟩ : RunRes J) := by
  exact ⟨scopedOk_errSeq ids, Or.inr ⟨rfl, [], by simp, rfl⟩⟩

theorem memStr_head (i : String) (ids : List String) : memStr i (i :: ids) = true := by
  simp [memStr]

/-- Core invariant for one sub-stream containing only protocol events, no
finished function call and no completion, with tool-call-detail disabled:
the drained prefix emits no terminal marker unless it takes the failure
path (which ends in exactly one), and every text event is scoped to a
previously created step id. -/
theorem c1_core (env : Env J) (oc : Nat → String → RunRes J)
    (hdetail : env.showDetail = false) :
    ∀ (es : List UEvent),
      (∀ e ∈ es, protocolEvent e = true ∧ isFnDone e = false ∧ e ≠ UEvent.completed) →
      ∀ (ids : List String) (k : Nat) (rid cur : String),
        (cur ≠ "" → memStr cur ids = true) →
        turnOutOk ids (runList env oc es k rid cur) := by
  intro es
  induction es with
  | nil =>
      intro _ ids k rid cur hcur
      exact ⟨rfl, Or.inl ⟨rfl, rfl, fun h => by simpa [idsAfter] using hcur h⟩⟩
  | cons e es ih =>
      intro hes ids k rid cur hcur
      obtain ⟨hp, hfd, hnc⟩ := hes e (List.mem_cons_self e es)
      have ihes := fun ids' k' rid' cur' h =>
        ih (fun x hx => hes x (List.mem_cons_of_mem e hx)) ids' k' rid' cur' h
      cases e with
      | created r =>
          rw [runList]
          exact turnOutOk_prepend [] _ ids rfl rfl (ihes ids k r cur hcur)
      | skipped =>
          rw [runList]
          exact turnOutOk_prepend [] _ ids rfl rfl (ihes ids k rid cur hcur)
      | unknown t =>
          rw [runList]
          exact turnOutOk_prepend [] _ ids rfl rfl (ihes ids k rid cur hcur)
      | toolSearching etype itemId =>
          rw [runList]
          refine turnOutOk_prepend _ _ ids (by simp [scopedOk, creationName]) rfl ?_
          exact ihes _ k rid itemId (fun _ => by
            simpa [idsAfter, creationName] using memStr_head itemId ids)
      | outputItemAdded itemId itemType itemName =>
          rw [runList, stepOf]
          by_cases h1 : itemId ≠ "" ∧ (itemType = "message" ∨ itemType = "output_text")
          · rw [if_pos h1]
            refine turnOutOk_prepend _ _ ids (by simp [scopedOk, creationName]) rfl ?_
            exact ihes _ k rid itemId (fun _ => by
              simpa [idsAfter, creationName] using memStr_head itemId ids)
          · rw [if_neg h1]
            by_cases h2 : itemType = "function_call" ∨ itemType = "mcp_call"
            · rw [if_pos h2]
              refine turnOutOk_prepend _ _ ids (by simp [scopedOk, creationName]) rfl ?_
              exact ihes _ k rid itemId (fun _ => by
                simpa [idsAfter, creationName] using memStr_head itemId ids)
            · rw [if_neg h2]
              exact turnOutOk_prepend [] _ ids rfl rfl (ihes ids k rid cur hcur)
      | textDelta itemId delta =>
          rw [runList, stepOf]
          by_cases h1 : delta ≠ "" ∧ cur ≠ ""
          · rw [if_pos h1]
            refine turnOutOk_prepend _ _ ids ?_ rfl ?_
            · simp [scopedOk, creationName, textName, hcur h1.2]
            · exact ihes _ k rid cur (fun h => by
                simpa [idsAfter, creationName] using hcur h)
          · rw [if_neg h1]
            exact turnOutOk_prepend [] _ ids rfl rfl (ihes ids k rid cur hcur)
      | codeDelta delta =>
          rw [runList, stepOf]
          by_cases h1 : delta ≠ "" ∧ cur ≠ ""
          · rw [if_pos h1]
            refine turnOutOk_prepend _ _ ids ?_ rfl ?_
            · simp [scopedOk, creationName, textName]
            · exact ihes _ k rid cur (fun h => by
                simpa [idsAfter, creationName] using hcur h)
          · rw [if_neg h1]
            exact turnOutOk_prepend [] _ ids rfl rfl (ihes ids k rid cur hcur)
      | argsDelta itemId delta =>
          rw [runList, stepOf, hdetail]
          rw [if_neg (by simp)]
          exact turnOutOk_prepend [] _ ids rfl rfl (ihes ids k rid cur hcur)
      | annotationAdded ann =>
          cases ann with
          | none =>
              rw [runList, stepOf]
              exact turnOutOk_prepend [] _ ids rfl rfl (ihes ids k rid cur hcur)
          | some a =>
              cases a with
              | fileCitation filename =>
                  rw [runList, stepOf]
                  by_cases hc : cur = ""
                  · rw [if_pos hc]
                    exact turnOutOk_prepend [] _ ids rfl rfl (ihes ids k rid cur hcur)
                  · rw [if_neg hc]
                    cases hurl : url_path_for "download_stored_file"
                        [("file_name", url_quote filename)] with
                    | none => simp only [hurl]; exact turnOutOk_raise ids k rid cur
                    | some p =>
                        simp only [hurl]
                        refine turnOutOk_prepend _ _ ids ?_ rfl ?_
                        · simp [scopedOk, creationName, textName, hcur hc]
                        · exact ihes _ k rid cur (fun h => by
                            simpa [idsAfter, creationName] using hcur h)
              | containerFileCitation containerId fileId =>
                  rw [runList, stepOf]
                  by_cases hc : cur = ""
                  · rw [if_pos hc]
                    exact turnOutOk_prepend [] _ ids rfl rfl (ihes ids k rid cur hcur)
                  · rw [if_neg hc]
                    cases hret : env.containerRetrieve containerId fileId with
                    | none => exact turnOutOk_raise ids k rid cur
                    | some path =>
                        cases hurl : url_path_for "download_container_file"
                            [("container_id", containerId), ("file_id", fileId)] with
                        | none => simp only [hurl]; exact turnOutOk_raise ids k rid cur
                        | some p =>
                            simp only [hurl]
                            refine turnOutOk_prepend _ _ ids ?_ rfl ?_
                            · simp [scopedOk, creationName, textName, hcur hc]
                            · exact ihes _ k rid cur (fun h => by
                                simpa [idsAfter, creationName] using hcur h)
              | otherKind t =>
                  rw [runList, stepOf]
                  by_cases hc : cur = ""
                  · rw [if_pos hc]
                    exact turnOutOk_prepend [] _ ids rfl rfl (ihes ids k rid cur hcur)
                  · rw [if_neg hc]
                    exact turnOutOk_prepend [] _ ids rfl rfl (ihes ids k rid cur hcur)
      | outputItemDone itemId itemType itemName argumentsJson =>
          have hty : ¬ itemType = "function_call" := by
            simpa [isFnDone] using hfd
          rw [runList, stepOf, if_neg hty]
          exact turnOutOk_prepend [] _ ids rfl rfl (ihes ids k rid cur hcur)
      | completed => exact absurd rfl hnc
      | transportError => simp [protocolEvent] at hp
      | cancelDelivered => simp [protocolEvent] at hp

end InvariantLemmas

section ControlLemmas

variable {J : Type}

theorem iterate_stream_eq_runList (env : Env J) (fuel : Nat) (evs : List UEvent)
    (k : Nat) (rid cur : String) :
    iterate_stream env fuel evs k rid cur = runList env (contOf env fuel) evs k rid cur := by
  cases fuel <;> rfl

theorem stepOf_eq_stop (env : Env J) (rid cur : String) (e : UEvent)
    (h : stepOf env rid cur e = Step.stop) : e = UEvent.cancelDelivered := by
  cases e
  case cancelDelivered => rfl
  case annotationAdded ann =>
      cases ann with
      | none => simp [stepOf] at h
      | some a =>
          cases a <;> (simp only [stepOf] at h; (repeat' split at h)) <;> simp_all
  all_goals (simp only [stepOf] at h; (repeat' split at h) <;> simp_all)

theorem stepOf_eq_fnDone (env : Env J) (rid cur : String) (e : UEvent)
    (itemId itemName : String) (a : J)
    (h : stepOf env rid cur e = Step.fnDone itemId itemName a) : isFnDone e = true := by
  cases e
  case outputItemDone i t n args => simp only [stepOf] at h; (repeat' split at h) <;> simp_all [isFnDone]
  case annotationAdded ann =>
      cases ann with
      | none => simp [stepOf] at h
      | some a' =>
          cases a' <;> (simp only [stepOf] at h; (repeat' split at h)) <;> simp_all
  all_goals (simp only [stepOf] at h; (repeat' split at h) <;> simp_all)

/-- Draining a sub-stream that contains no finished function call and no
cancellation performs no dispatch, submits nothing, and is never the source
of a cancellation outcome. -/
theorem noFn_run (env : Env J) (oc : Nat → String → RunRes J) :
    ∀ (es : List UEvent),
      (∀ e ∈ es, isFnDone e = false ∧ e ≠ UEvent.cancelDelivered) →
      ∀ (k : Nat) (rid cur : String),
        (runList env oc es k rid cur).dispatches = [] ∧
        (runList env oc es k rid cur).submissions = [] ∧
        (runList env oc es k rid cur).outcome ≠ Outcome.cancelled := by
  intro es
  induction es with
  | nil => intro _ k rid cur; exact ⟨rfl, rfl, by simp [runList]⟩
  | cons e es ih =>
      intro hes k rid cur
      obtain ⟨hfd, hnc⟩ := hes e (List.mem_cons_self e es)
      have ihes := ih (fun x hx => hes x (List.mem_cons_of_mem e hx))
      rw [runList]
      cases hstep : stepOf env rid cur e with
      | push outs rid' cur' =>
          obtain ⟨h1, h2, h3⟩ := ihes k rid' cur'
          exact ⟨by simp [h1], by simp [h2], by simpa using h3⟩
      | raiseExc => exact ⟨rfl, rfl, by simp⟩
      | stop => exact absurd (stepOf_eq_stop env rid cur e hstep) hnc
      | fnDone itemId itemName a =>
          rw [stepOf_eq_fnDone env rid cur e itemId itemName a hstep] at hfd
          exact absurd hfd (by simp)

/-- Head analysis of a finished function call: it is dispatched
unconditionally (and first), provided the continuation collaborator
dispatches nothing and is not cancelled. -/
theorem run_fnDone_dispatch (env : Env J) (oc : Nat → String → RunRes J)
    (rest : List UEvent) (k : Nat) (rid cur : String)
    (itemId itemName args : String) (a : J)
    (hp : env.jsonParse args = some a)
    (hoc : ∀ (k' : Nat) (rid' : String),
      (oc k' rid').dispatches = [] ∧ (oc k' rid').outcome ≠ Outcome.cancelled) :
    ∃ k' : Nat,
      (runList env oc (UEvent.outputItemDone itemId "function_call" itemName args :: rest)
          k rid cur).dispatches =
        (itemName, a) :: (runList env oc rest k' rid itemId).dispatches := by
  rw [runList, stepOf]
  rw [if_pos rfl, hp]
  cases hlook : env.lookupCallId itemId with
  | none =>
      refine ⟨k, ?_⟩
      dsimp only
      rw [hlook]
      simp
  | some callId =>
      obtain ⟨hd, hc⟩ := hoc k rid
      refine ⟨(oc k rid).nextCont, ?_⟩
      dsimp only
      rw [hlook]
      simp [hc, hd]

/-- Submissions are always the json dump of a dispatch result. -/
theorem subs_shape (env : Env J) (oc : Nat → String → RunRes J)
    (hoc : ∀ (k : Nat) (rid : String) (cs : String × String),
      cs ∈ (oc k rid).submissions → ∃ nm a, cs.2 = env.jsonDumps (env.dispatch nm a)) :
    ∀ (es : List UEvent) (k : Nat) (rid cur : String) (cs : String × String),
      cs ∈ (runList env oc es k rid cur).submissions →
      ∃ nm a, cs.2 = env.jsonDumps (env.dispatch nm a) := by
  intro es
  induction es with
  | nil => intro k rid cur cs h; simp [runList] at h
  | cons e es ih =>
      intro k rid cur cs h
      rw [runList] at h
      cases hstep : stepOf env rid cur e with
      | push outs rid' cur' =>
          rw [hstep] at h
          simp only [prepend_submissions, List.nil_append] at h
          exact ih k rid' cur' cs h
      | raiseExc => rw [hstep] at h; simp at h
      | stop => rw [hstep] at h; simp at h
      | fnDone itemId itemName a =>
          rw [hstep] at h
          simp only [] at h
          cases hlook : env.lookupCallId itemId with
          | none =>
              rw [hlook] at h
              dsimp only at h
              simp only [prepend_submissions, List.nil_append] at h
              exact ih k rid itemId cs h
          | some callId =>
              rw [hlook] at h
              dsimp only at h
              by_cases hc : (oc k rid).outcome = Outcome.cancelled
              · rw [if_pos hc] at h
                simp only [List.mem_cons] at h
                rcases h with h | h
                · exact ⟨itemName, a, by rw [h]⟩
                · exact hoc k rid cs h
              · rw [if_neg hc] at h
                simp only [prepend_submissions, List.mem_append, List.mem_cons] at h
                rcases h with (h | h) | h
                · exact ⟨itemName, a, by rw [h]⟩
                · exact hoc k rid cs h
                · exact ih (oc k rid).nextCont rid itemId cs h

/-- Submissions of a full (fuelled, recursive) drain are always the json
dump of a dispatch result. -/
theorem iterate_subs_shape (env : Env J) :
    ∀ (fuel : Nat) (es : List UEvent) (k : Nat) (rid cur : String) (cs : String × String),
      cs ∈ (iterate_stream env fuel es k rid cur).submissions →
      ∃ nm a, cs.2 = env.jsonDumps (env.dispatch nm a) := by
  intro fuel
  induction fuel with
  | zero =>
      intro es k rid cur cs h
      rw [iterate_stream_eq_runList] at h
      refine subs_shape env _ ?_ es k rid cur cs h
      intro k' rid' cs' h'
      simp [contOf] at h'
  | succ f ih =>
      intro es k rid cur cs h
      rw [iterate_stream_eq_runList] at h
      refine subs_shape env _ ?_ es k rid cur cs h
      intro k' rid' cs' h'
      exact ih _ _ _ _ cs' (by simpa [contOf] using h')

/-- Observing a cancellation at the head of the remaining stream emits
nothing at all: the `except asyncio.CancelledError: raise` handler re-raises
without yielding. -/
theorem run_cancel_head (env : Env J) (oc : Nat → String → RunRes J)
    (rest : List UEvent) (k : Nat) (rid cur : String) :
    runList env oc (UEvent.cancelDelivered :: rest) k rid cur =
      ⟨Outcome.cancelled, k, rid, cur, [], [], []⟩ := rfl

end ControlLemmas

section AppendCorollaries

variable {J : Type}

theorem runList_append_ran (env : Env J) (oc : Nat → String → RunRes J)
    (xs ys : List UEvent) (k : Nat) (rid cur : String)
    (h : (runList env oc xs k rid cur).outcome = Outcome.ran) :
    runList env oc (xs ++ ys) k rid cur =
      RunRes.prepend (runList env oc xs k rid cur).out
        (runList env oc xs k rid cur).dispatches
        (runList env oc xs k rid cur).submissions
        (runList env oc ys (runList env oc xs k rid cur).nextCont
          (runList env oc xs k rid cur).finalRid
          (runList env oc xs k rid cur).finalCur) := by
  rw [runList_append]
  simp [h]

theorem runList_append_stop (env : Env J) (oc : Nat → String → RunRes J)
    (xs ys : List UEvent) (k : Nat) (rid cur : String)
    (h : (runList env oc xs k rid cur).outcome ≠ Outcome.ran) :
    runList env oc (xs ++ ys) k rid cur = runList env oc xs k rid cur := by
  rw [runList_append]
  simp [h]

theorem runList_completed_single (env : Env J) (oc : Nat → String → RunRes J)
    (k : Nat) (rid cur : String) :
    runList env oc [UEvent.completed] k rid cur =
      ⟨Outcome.ran, k, rid, cur, doneSeq, [], []⟩ := rfl

/-- Per-sub-stream terminal/scoping property assembled from the core
invariant: a stream of protocol events with no finished function call and
no completion, followed by a single final `completed`, emits a downstream
sequence ending in exactly one `endStream` marker, with every text event
scoped to a previously created step id. -/
theorem runList_terminal_scoped (env : Env J) (oc : Nat → String → RunRes J)
    (front : List UEvent) (hdetail : env.showDetail = false)
    (hfront : ∀ e ∈ front, protocolEvent e = true ∧ isFnDone e = false ∧ e ≠ UEvent.completed)
    (k : Nat) (rid : String) :
    endStreamCount (runList env oc (front ++ [UEvent.completed]) k rid "").out = 1 ∧
    (∃ l e, (runList env oc (front ++ [UEvent.completed]) k rid "").out = l ++ [e] ∧
      e.name = "endStream") ∧
    scopedOk [] (runList env oc (front ++ [UEvent.completed]) k rid "").out = true := by
  have hinv := c1_core env oc hdetail front hfront [] k rid "" (fun h => absurd rfl h)
  obtain ⟨hscope, hrest⟩ := hinv
  rcases hrest with ⟨ho, hcnt, _⟩ | ⟨ho, p, hp, hpc⟩
  · rw [runList_append_ran env oc front [UEvent.completed] k rid "" ho,
      runList_completed_single]
    refine ⟨?_, ?_, ?_⟩
    · rw [prepend_out]
      show endStreamCount ((runList env oc front k rid "").out ++ doneSeq) = 1
      rw [endStreamCount_append, hcnt, endStreamCount_doneSeq]
    · refine ⟨(runList env oc front k rid "").out ++ [loaderClear],
        ⟨"endStream", none, "DONE"⟩, ?_, rfl⟩
      rw [prepend_out]
      show (runList env oc front k rid "").out ++ doneSeq = _
      rw [doneSeq, List.append_assoc]
      rfl
    · rw [prepend_out]
      show scopedOk [] ((runList env oc front k rid "").out ++ doneSeq) = true
      rw [scopedOk_append, hscope, scopedOk_doneSeq]
      rfl
  · rw [runList_append_stop env oc front [UEvent.completed] k rid "" (by rw [ho]; simp)]
    refine ⟨?_, ?_, ?_⟩
    · rw [hp, endStreamCount_append, hpc, endStreamCount_errSeq]
    · refine ⟨p ++ [loaderClear, ⟨"networkError", none, "<span></span>"⟩],
        ⟨"endStream", none, "ERROR"⟩, ?_, rfl⟩
      rw [hp, errSeq, List.append_assoc]
      rfl
    · exact hscope

end AppendCorollaries

section Claims

/-- Claim C1 (corrected by this counterexample): the original claim states
that for every upstream sequence beginning with one `StreamStarted` and
ending with exactly one `StreamCompleted`/`StreamFailed` — explicitly
including sequences with a finished function tool call triggering a
continuation sub-stream — the downstream sequence ends with exactly one
terminal `endStream` marker, and no `textDelta`/`textReplacement` is scoped
to an item id lacking a prior `messageCreated`/`toolCallCreated`.  All three
parts fail on the code: (1) a finished function call triggers a continuation
whose own `response.completed` emits `endStream:DONE`, and the outer
stream's trailing `response.completed` then emits a second one — two
terminal markers; (2) a stream ending in `response.failed` falls into the
unhandled-event arm, so no terminal marker is emitted at all; (3) with
tool-call detail enabled, a `ToolArgumentsDelta` reassigns the current item
id without any creation event, so a following `textDelta` is scoped to an
id that was never created. -/
theorem claim_C1_counterexample :
    endStreamCount (runTurn envPlain 5
        [UEvent.created "r1", fnDoneEv, UEvent.completed]).out = 2 ∧
    (runTurn envPlain 5 [UEvent.created "r1", UEvent.unknown "response.failed"]).out = [] ∧
    scopedOk [] (runTurn envDetail 5
        [UEvent.created "r1", UEvent.argsDelta "it1" "x",
         UEvent.textDelta "" "hi", UEvent.completed]).out = false := by
  decide

/-- Claim C1, amended: for every upstream sequence of protocol events whose
only completion event is a single final `StreamCompleted`, which contains no
finished function tool call (hence triggers no continuation sub-stream), and
with tool-call detail disabled, the downstream sequence produced by the
orchestrator ends with exactly one terminal `endStream` marker (the failure
marker if a handler raised mid-stream, the success marker otherwise), and no
`textDelta`/`textReplacement` is scoped to an item id lacking a prior
`messageCreated`/`toolCallCreated`. -/
theorem claim_C1_amended {J : Type} (env : Env J) (fuel : Nat) (front : List UEvent)
    (hdetail : env.showDetail = false)
    (hfront : ∀ e ∈ front, protocolEvent e = true ∧ isFnDone e = false ∧
      e ≠ UEvent.completed) :
    endStreamCount (runTurn env fuel (front ++ [UEvent.completed])).out = 1 ∧
    (∃ l e, (runTurn env fuel (front ++ [UEvent.completed])).out = l ++ [e] ∧
      e.name = "endStream") ∧
    scopedOk [] (runTurn env fuel (front ++ [UEvent.completed])).out = true := by
  rw [runTurn, iterate_stream_eq_runList]
  exact runList_terminal_scoped env (contOf env fuel) front hdetail hfront 0 ""

/-- Claim C1 witness: the amended claim at spec Scenario A
(`StreamStarted`, message item, one text delta, `StreamCompleted`). -/
theorem claim_C1_witness :
    endStreamCount (runTurn envPlain 3
        ([UEvent.created "r1", UEvent.outputItemAdded "m1" "message" "",
          UEvent.textDelta "m1" "Hello"] ++ [UEvent.completed])).out = 1 ∧
    (∃ l e, (runTurn envPlain 3
        ([UEvent.created "r1", UEvent.outputItemAdded "m1" "message" "",
          UEvent.textDelta "m1" "Hello"] ++ [UEvent.completed])).out = l ++ [e] ∧
      e.name = "endStream") ∧
    scopedOk [] (runTurn envPlain 3
        ([UEvent.created "r1", UEvent.outputItemAdded "m1" "message" "",
          UEvent.textDelta "m1" "Hello"] ++ [UEvent.completed])).out = true :=
  claim_C1_amended envPlain 3
    [UEvent.created "r1", UEvent.outputItemAdded "m1" "message" "",
     UEvent.textDelta "m1" "Hello"] rfl (by decide)

/-- Claim C2 (corrected by this counterexample): the original claim states
that replaying the same finished function tool-call event a second time does
not invoke the tool handler again, the duplicate being a no-op because its
pending-arguments buffer was removed on first consumption.  On the code a
replayed `ResponseOutputItemDoneEvent` dispatches the tool a second time:
there is no pending-arguments buffer at all, and each `function_call` done
event unconditionally parses its embedded argument payload and dispatches.
Here the same finished call replayed once produces two registry
invocations. -/
theorem claim_C2_counterexample :
    (runTurn envPlain 5 [fnDoneEv, fnDoneEv, UEvent.completed]).dispatches =
      [("get_weather", true), ("get_weather", true)] := by
  decide

/-- Claim C2, amended: replaying the same finished function tool-call event
a second time invokes the tool handler a second time; the code keeps no
pending-arguments buffer, so the duplicate is dispatched exactly like the
first occurrence (assuming its arguments parse, and continuation sub-streams
that themselves contain no finished function call or cancellation). -/
theorem claim_C2_amended {J : Type} (env : Env J) (fuel k : Nat) (rid cur : String)
    (rest : List UEvent) (itemId itemName args : String) (a : J)
    (hp : env.jsonParse args = some a)
    (hcont : ∀ n : Nat, ∀ e ∈ env.continuation n,
      isFnDone e = false ∧ e ≠ UEvent.cancelDelivered) :
    ∃ tail, (iterate_stream env fuel
        (UEvent.outputItemDone itemId "function_call" itemName args ::
         UEvent.outputItemDone itemId "function_call" itemName args :: rest)
        k rid cur).dispatches = (itemName, a) :: (itemName, a) :: tail := by
  have hoc : ∀ (k' : Nat) (rid' : String),
      (contOf env fuel k' rid').dispatches = [] ∧
      (contOf env fuel k' rid').outcome ≠ Outcome.cancelled := by
    cases fuel with
    | zero => intro k' rid'; exact ⟨rfl, by simp [contOf]⟩
    | succ f =>
        intro k' rid'
        show (iterate_stream env f (env.continuation k') (k' + 1) rid' "").dispatches = [] ∧
          (iterate_stream env f (env.continuation k') (k' + 1) rid' "").outcome ≠
            Outcome.cancelled
        rw [iterate_stream_eq_runList]
        have h := noFn_run env (contOf env f) (env.continuation k') (hcont k') (k' + 1) rid' ""
        exact ⟨h.1, h.2.2⟩
  rw [iterate_stream_eq_runList]
  obtain ⟨k₁, h₁⟩ := run_fnDone_dispatch env (contOf env fuel)
    (UEvent.outputItemDone itemId "function_call" itemName args :: rest)
    k rid cur itemId itemName args a hp hoc
  obtain ⟨k₂, h₂⟩ := run_fnDone_dispatch env (contOf env fuel)
    rest k₁ rid itemId itemId itemName args a hp hoc
  rw [h₁, h₂]
  exact ⟨_, rfl⟩

/-- Claim C2 witness: the amended claim at a concrete duplicated
`get_weather` call with immediately-completing continuation sub-streams. -/
theorem claim_C2_witness :
    ∃ tail, (iterate_stream envPlain 3
        (UEvent.outputItemDone "fc1" "function_call" "get_weather"
            "\x7b\"location\": \"Paris\"\x7d" ::
         UEvent.outputItemDone "fc1" "function_call" "get_weather"
            "\x7b\"location\": \"Paris\"\x7d" :: [UEvent.completed])
        0 "" "").dispatches = ("get_weather", true) :: ("get_weather", true) :: tail :=
  claim_C2_amended envPlain 3 0 "" "" [UEvent.completed] "fc1" "get_weather"
    "\x7b\"location\": \"Paris\"\x7d" true (by decide)
    (by
      intro n e he
      simp only [envPlain, envB, List.mem_singleton] at he
      subst he
      exact ⟨rfl, by decide⟩)

/-- Claim C3 (corrected by this counterexample): the original claim states
that a finished tool call whose argument payload fails to parse falls back
to an empty object and the turn continues.  On the code `json.loads` raises,
the exception reaches the generic handler, and the turn segment aborts with
the failure sequence: no tool is dispatched, no empty-object fallback
occurs, and the remaining events (here a text delta and the completion) are
never processed. -/
theorem claim_C3_counterexample :
    (runTurn envPlain 5 [UEvent.created "r1",
        UEvent.outputItemDone "fc1" "function_call" "get_weather" "BAD",
        UEvent.textDelta "m1" "x", UEvent.completed]).out = errSeq ∧
    (runTurn envPlain 5 [UEvent.created "r1",
        UEvent.outputItemDone "fc1" "function_call" "get_weather" "BAD",
        UEvent.textDelta "m1" "x", UEvent.completed]).dispatches = [] := by
  decide

/-- Claim C3, amended: a finished function tool call whose argument payload
fails to parse is turn-segment-fatal: the parse exception reaches the
generic handler, which emits the loader-clearing signal, `networkError` and
`endStream:ERROR`; no tool is dispatched, nothing is submitted upstream, and
the remaining events of the sub-stream are not processed. -/
theorem claim_C3_amended {J : Type} (env : Env J) (fuel k : Nat) (rid cur : String)
    (rest : List UEvent) (itemId itemName args : String)
    (hp : env.jsonParse args = none) :
    iterate_stream env fuel
        (UEvent.outputItemDone itemId "function_call" itemName args :: rest) k rid cur =
      ⟨Outcome.errored, k, rid, cur, errSeq, [], []⟩ := by
  rw [iterate_stream_eq_runList, runList, stepOf, if_pos rfl, hp]

/-- Claim C3 witness: the amended claim at a concrete unparseable payload. -/
theorem claim_C3_witness :
    iterate_stream envPlain 3
        (UEvent.outputItemDone "fc1" "function_call" "get_weather" "BAD" ::
          [UEvent.completed]) 0 "" "" =
      ⟨Outcome.errored, 0, "", "", errSeq, [], []⟩ :=
  claim_C3_amended envPlain 3 0 "" "" [UEvent.completed] "fc1" "get_weather" "BAD"
    (by decide)

/-- Claim C4 (corrected by this counterexample): the original claim states
that every `ToolArgumentsDelta` appends its fragment to the accumulation
buffer `pending_arguments[call_id]`, so that after a sequence of fragments
the buffer holds their concatenation.  No such buffer exists in the code:
with tool-call detail disabled (the default), the whole run — outputs,
state, dispatches and submissions — is bit-for-bit identical with and
without the fragment events, and the arguments actually dispatched for a
finished call come solely from the done event's embedded payload,
unaffected by any preceding fragments (here an unparseable fragment
precedes a well-formed done event and the dispatch still succeeds). -/
theorem claim_C4_counterexample :
    runTurn envPlain 5 [UEvent.argsDelta "call_1" "\x7b\"location\":",
        UEvent.argsDelta "call_1" " \"Paris\"\x7d", UEvent.completed] =
      runTurn envPlain 5 [UEvent.completed] ∧
    (runTurn envPlain 5 [UEvent.argsDelta "fc1" "BAD", fnDoneEv,
        UEvent.completed]).dispatches = [("get_weather", true)] := by
  decide

/-- Claim C4, amended: `ToolArgumentsDelta` fragments are not accumulated
anywhere.  With tool-call detail disabled the event is ignored entirely
(dropping it leaves the run unchanged); with detail enabled the fragment is
forwarded immediately as a `toolDelta` scoped to the event's item id, which
also becomes the current item id — but no per-call buffer is updated in
either case. -/
theorem claim_C4_amended {J : Type} (env : Env J) (fuel k : Nat)
    (rid cur c d : String) (rest : List UEvent) :
    (env.showDetail = false →
      iterate_stream env fuel (UEvent.argsDelta c d :: rest) k rid cur =
        iterate_stream env fuel rest k rid cur) ∧
    (env.showDetail = true →
      iterate_stream env fuel (UEvent.argsDelta c d :: rest) k rid cur =
        RunRes.prepend [⟨"toolDelta", some c, d⟩] [] []
          (iterate_stream env fuel rest k rid c)) := by
  constructor
  · intro h
    rw [iterate_stream_eq_runList, runList, stepOf, h]
    rw [if_neg (by simp)]
    dsimp only
    rw [prepend_nil, iterate_stream_eq_runList]
  · intro h
    rw [iterate_stream_eq_runList, runList, stepOf, h]
    rw [if_pos rfl]
    dsimp only
    rw [iterate_stream_eq_runList]

/-- Claim C4 witness: both halves of the amended claim at concrete
fragments (detail disabled for the first, enabled for the second). -/
theorem claim_C4_witness :
    iterate_stream envPlain 3 (UEvent.argsDelta "call_1" "frag" :: [UEvent.completed])
        0 "" "" = iterate_stream envPlain 3 [UEvent.completed] 0 "" "" ∧
    iterate_stream envDetail 3 (UEvent.argsDelta "call_1" "frag" :: [UEvent.completed])
        0 "" "" = RunRes.prepend [⟨"toolDelta", some "call_1", "frag"⟩] [] []
          (iterate_stream envDetail 3 [UEvent.completed] 0 "" "call_1") :=
  ⟨(claim_C4_amended envPlain 3 0 "" "" "call_1" "frag" [UEvent.completed]).1 rfl,
   (claim_C4_amended envDetail 3 0 "" "" "call_1" "frag" [UEvent.completed]).2 rfl⟩

/-- Claim C5 (corrected by this counterexample): the original claim states
that a failing container-file lookup for a `container_file_citation`
annotation produces no `textReplacement` and does not abort the turn.  The
first half holds, but the turn is aborted: the lookup exception reaches the
generic handler, the failure sequence is emitted, and the subsequent text
delta and completion are never processed — streaming does not continue to a
normal terminal. -/
theorem claim_C5_counterexample :
    (runTurn envRetrieveFails 5 [UEvent.created "r1",
        UEvent.outputItemAdded "m1" "message" "",
        UEvent.annotationAdded (some (Ann.containerFileCitation "cntr_1" "cfile_1")),
        UEvent.textDelta "m1" "hi", UEvent.completed]).out =
      [⟨"messageCreated", some "m1", "m1"⟩] ++ errSeq := by
  decide

/-- Claim C5, amended: an `AnnotationAdded` carrying a
`container_file_citation` whose upstream lookup fails emits no
`textReplacement`, and the turn segment aborts through the failure path
(loader clear, `networkError`, `endStream:ERROR`); the remaining events of
the sub-stream are not processed. -/
theorem claim_C5_amended {J : Type} (env : Env J) (fuel k : Nat)
    (rid cur containerId fileId : String) (rest : List UEvent)
    (hcur : cur ≠ "")
    (hret : env.containerRetrieve containerId fileId = none) :
    iterate_stream env fuel
        (UEvent.annotationAdded (some (Ann.containerFileCitation containerId fileId)) ::
          rest) k rid cur =
      ⟨Outcome.errored, k, rid, cur, errSeq, [], []⟩ ∧
    errSeq.filter (fun e => textName e.name) = [] := by
  refine ⟨?_, by decide⟩
  rw [iterate_stream_eq_runList, runList, stepOf, if_neg hcur, hret]

/-- Claim C5 witness: the amended claim at a concrete failing lookup with an
active message item. -/
theorem claim_C5_witness :
    iterate_stream envRetrieveFails 3
        (UEvent.annotationAdded (some (Ann.containerFileCitation "cntr_1" "cfile_1")) ::
          [UEvent.textDelta "m1" "hi", UEvent.completed]) 0 "r1" "m1" =
      ⟨Outcome.errored, 0, "r1", "m1", errSeq, [], []⟩ ∧
    errSeq.filter (fun e => textName e.name) = [] :=
  claim_C5_amended envRetrieveFails 3 0 "r1" "m1" "cntr_1" "cfile_1"
    [UEvent.textDelta "m1" "hi", UEvent.completed] (by decide) (by decide)

/-- Claim C6 (confirmed): for every tool result produced by a dispatched
function call, the string payload submitted back to the upstream session as
the `function_call_output` is the json dump of that result, so parsing it
yields a value structurally equal to the result's payload (assuming the
json encoder/decoder round-trips, which is a property of the json library,
not of the orchestrator). -/
theorem claim_C6_roundtrip {J : Type} (env : Env J) (fuel : Nat) (evs : List UEvent)
    (k : Nat) (rid cur : String)
    (hround : ∀ j, env.jsonParse (env.jsonDumps j) = some j) :
    ∀ cs ∈ (iterate_stream env fuel evs k rid cur).submissions,
      ∃ nm a, cs.2 = env.jsonDumps (env.dispatch nm a) ∧
        env.jsonParse cs.2 = some (env.dispatch nm a) := by
  intro cs h
  obtain ⟨nm, a, he⟩ := iterate_subs_shape env fuel evs k rid cur cs h
  exact ⟨nm, a, he, by rw [he, hround]⟩

/-- Claim C6 witness: the round trip at a concrete turn whose single
`get_weather` dispatch submits the payload `"true"` under call id
`call_fc1`. -/
theorem claim_C6_witness :
    ∃ nm a, ("true" : String) = envRound.jsonDumps (envRound.dispatch nm a) ∧
      envRound.jsonParse "true" = some (envRound.dispatch nm a) :=
  claim_C6_roundtrip envRound 3
    [UEvent.outputItemDone "fc1" "function_call" "get_weather" "true", UEvent.completed]
    0 "" "" (by decide) ("call_fc1", "true") (by decide)

/-- Claim C7 (code bug): the claim states that every `file_citation`
annotation with an active item produces a text-replacement event whose
payload anchors the file-download route with the URL-escaped filename.  The
code instead calls `files_router.url_path_for("download_stored_file", ...)`,
but no route of the files router bears that name — the local download route
is the function `download_assistant_file` — so starlette raises
`NoMatchFound`, the generic handler aborts the turn with the failure
sequence, and no citation event (neither `textReplacement` nor the
`textDelta` the code would actually emit) is ever produced.  The run below
evaluates the code at the failing input; the last two conjuncts record that
the name used by the code resolves to no route while the actual route name
resolves to the expected URL-escaped path. -/
theorem claim_C7_code_bug :
    (runTurn envPlain 5 [UEvent.created "r1",
        UEvent.outputItemAdded "m1" "message" "",
        UEvent.annotationAdded (some (Ann.fileCitation "report.pdf")),
        UEvent.completed]).out =
      [⟨"messageCreated", some "m1", "m1"⟩] ++ errSeq ∧
    url_path_for "download_stored_file" [("file_name", url_quote "report.pdf")] = none ∧
    url_path_for "download_assistant_file" [("file_name", url_quote "report.pdf")] =
      some "/files/report.pdf" := by
  decide

/-- Claim C8 (corrected by this counterexample): the original claim states
that after the failure sequence the loop exits and emits nothing further.
That holds for the sub-stream that failed, but when the failure occurs
inside a continuation sub-stream, only that inner generator returns: the
enclosing stream resumes after the recursive delegation and keeps emitting
— here the outer stream's completion emits a success terminal after the
failure sequence. -/
theorem claim_C8_counterexample :
    (runTurn envContFails 5 [UEvent.created "r1", fnDoneEv, UEvent.completed]).out =
      [⟨"toolOutput", none, "<pre>true</pre>"⟩] ++ errSeq ++ doneSeq := by
  decide

/-- Claim C8, amended: on any uncaught non-cancellation exception raised
while draining a sub-stream, that sub-stream's loop emits, in order, the
loader-clearing `runCompleted`, a `networkError` with a non-empty payload,
and `endStream` with the `ERROR` marker, then returns: it processes no
further events, dispatches nothing, submits nothing and opens no retry.  An
enclosing sub-stream, if any, resumes after the failed continuation
returns. -/
theorem claim_C8_amended {J : Type} (env : Env J) (fuel k : Nat) (rid cur : String)
    (e : UEvent) (rest : List UEvent)
    (hraise : stepOf env rid cur e = Step.raiseExc) :
    iterate_stream env fuel (e :: rest) k rid cur =
      ⟨Outcome.errored, k, rid, cur, errSeq, [], []⟩ ∧
    errSeq = [loaderClear, ⟨"networkError", none, "<span></span>"⟩,
      ⟨"endStream", none, "ERROR"⟩] ∧
    ("<span></span>" : String) ≠ "" := by
  refine ⟨?_, rfl, by decide⟩
  rw [iterate_stream_eq_runList, runList, hraise]

/-- Claim C8 witness: the amended claim at a concrete transport exception
raised while draining, with further events pending. -/
theorem claim_C8_witness :
    iterate_stream envPlain 3
        (UEvent.transportError :: [UEvent.textDelta "m1" "x", UEvent.completed])
        0 "r1" "m1" =
      ⟨Outcome.errored, 0, "r1", "m1", errSeq, [], []⟩ ∧
    errSeq = [loaderClear, ⟨"networkError", none, "<span></span>"⟩,
      ⟨"endStream", none, "ERROR"⟩] ∧
    ("<span></span>" : String) ≠ "" :=
  claim_C8_amended envPlain 3 0 "r1" "m1" UEvent.transportError
    [UEvent.textDelta "m1" "x", UEvent.completed] rfl

/-- Claim C9 (confirmed): when a cancellation is observed while draining,
after a prefix that ran normally, the cancellation propagates outward
(outcome `cancelled`, re-raised by the `except asyncio.CancelledError`
handler) and nothing is emitted, dispatched or submitted after the
cancellation point: in particular no `networkError` event and no
`endStream:ERROR` marker follow it — cancellation is never converted into
the FAILED terminal sequence. -/
theorem claim_C9_cancel_propagates {J : Type} (env : Env J) (fuel : Nat)
    (pre rest : List UEvent) (k : Nat) (rid cur : String)
    (hran : (iterate_stream env fuel pre k rid cur).outcome = Outcome.ran) :
    (iterate_stream env fuel (pre ++ UEvent.cancelDelivered :: rest) k rid cur).outcome =
      Outcome.cancelled ∧
    (iterate_stream env fuel (pre ++ UEvent.cancelDelivered :: rest) k rid cur).out =
      (iterate_stream env fuel pre k rid cur).out ∧
    (iterate_stream env fuel (pre ++ UEvent.cancelDelivered :: rest) k rid cur).dispatches =
      (iterate_stream env fuel pre k rid cur).dispatches ∧
    (iterate_stream env fuel (pre ++ UEvent.cancelDelivered :: rest) k rid cur).submissions =
      (iterate_stream env fuel pre k rid cur).submissions := by
  rw [iterate_stream_eq_runList] at hran
  have h1 := runList_append_ran env (contOf env fuel) pre
    (UEvent.cancelDelivered :: rest) k rid cur hran
  refine ⟨?_, ?_, ?_, ?_⟩ <;>
    rw [iterate_stream_eq_runList, h1, run_cancel_head] <;>
    simp [iterate_stream_eq_runList]

/-- Claim C9 witness: the cancellation property at a concrete turn cancelled
after a message and a text delta, with further events pending. -/
theorem claim_C9_witness :
    (iterate_stream envPlain 3
        ([UEvent.created "r1", UEvent.outputItemAdded "m1" "message" "",
          UEvent.textDelta "m1" "Hel"] ++ UEvent.cancelDelivered :: [UEvent.completed])
        0 "" "").outcome = Outcome.cancelled ∧
    (iterate_stream envPlain 3
        ([UEvent.created "r1", UEvent.outputItemAdded "m1" "message" "",
          UEvent.textDelta "m1" "Hel"] ++ UEvent.cancelDelivered :: [UEvent.completed])
        0 "" "").out =
      (iterate_stream envPlain 3
        [UEvent.created "r1", UEvent.outputItemAdded "m1" "message" "",
          UEvent.textDelta "m1" "Hel"] 0 "" "").out ∧
    (iterate_stream envPlain 3
        ([UEvent.created "r1", UEvent.outputItemAdded "m1" "message" "",
          UEvent.textDelta "m1" "Hel"] ++ UEvent.cancelDelivered :: [UEvent.completed])
        0 "" "").dispatches =
      (iterate_stream envPlain 3
        [UEvent.created "r1", UEvent.outputItemAdded "m1" "message" "",
          UEvent.textDelta "m1" "Hel"] 0 "" "").dispatches ∧
    (iterate_stream envPlain 3
        ([UEvent.created "r1", UEvent.outputItemAdded "m1" "message" "",
          UEvent.textDelta "m1" "Hel"] ++ UEvent.cancelDelivered :: [UEvent.completed])
        0 "" "").submissions =
      (iterate_stream envPlain 3
        [UEvent.created "r1", UEvent.outputItemAdded "m1" "message" "",
          UEvent.textDelta "m1" "Hel"] 0 "" "").submissions :=
  claim_C9_cancel_propagates envPlain 3
    [UEvent.created "r1", UEvent.outputItemAdded "m1" "message" "",
      UEvent.textDelta "m1" "Hel"] [UEvent.completed] 0 "" "" (by decide)

/-- Claim C10 (code bug): the claim states that `retrieve_file` serves a
file only when the resolved absolute path of `uploads/file_name` lies
inside the uploads directory, answering 403 (or 404 for missing paths)
otherwise.  The code's guard is a bare `startswith` against the absolute
uploads path with no trailing separator, so any sibling directory whose
name merely extends the string `uploads` passes the check: with working
directory `/app`, the name `../uploadsx/secret.txt` resolves to
`/app/uploadsx/secret.txt` — outside the uploads directory — yet the file
is served (first conjunct), contradicting the safety property (second
conjunct).  The third conjunct shows the guard does reject a resolved path
that escapes without the prefix collision, confirming the check's intent. -/
theorem claim_C10_code_bug :
    download_assistant_file "/app" (fun _ => true) "../uploadsx/secret.txt" =
      FileServe.fileResponse "uploads/../uploadsx/secret.txt" "../uploadsx/secret.txt" ∧
    insideUploads "/app" "../uploadsx/secret.txt" = false ∧
    download_assistant_file "/app" (fun _ => true) "../../etc/passwd" =
      FileServe.httpError 403 := by
  decide

end Claims

end Lemmas

end RespQuick
